import Mathlib

/-!
Shallow embedding of the react-zod-safe-action library.

Source files embedded here:

* `src/unnamed/part_002` - the `SafeAction` builder class (identical to
  `ReactSafeAction` in `src/unnamed/part_003`): `schema` returns a fresh
  builder holding the given Zod schema, `action` wraps a handler with a
  synchronous `safeParse` check that throws the `ZodError` on failure
  and otherwise calls the handler with the original data.
* `src/src/use-rsa.ts` - the `useAction` hook: a status cell holding one
  of idle, executing, error, success; an `execute` function that runs
  the wrapped action inside try/catch, normalizes caught failures into a
  validation/request pair, invokes the optional callbacks and writes the
  final status; plus `reset` and the derived `loading` flag.

JavaScript features are modelled explicitly: a function call either
returns a value or throws (`JsOutcome`); an awaited promise either
resolves or rejects (`Promise`); a plain JS object with string values is
an insertion-ordered association list updated by `objSet` (the semantics
of an assignment to a property); and `execute` is rendered as a trace of
its observable effects (`ExecTrace`): the sequence of `setStatus`
writes, the values passed to `onSuccess`, the responses passed to
`onError`, and the exception (if any) escaping as a rejection of the
promise `execute` itself returns.
-/

namespace RSA

/-- Status values of the hook state cell, `use-rsa.ts` lines 13-15. -/
inductive Status where
  | idle
  | executing
  | error
  | success
  deriving DecidableEq

/-- One Zod validation issue: a field path plus a human-readable
message, as carried by a `ZodError` in its issues array. -/
structure ZodIssue where
  path : List String
  message : String
  deriving DecidableEq

/-- A thrown JavaScript value, as far as the catch block of
`use-rsa.ts` can distinguish one: either a `ZodError` carrying its
issues, or any other value, of which the catch block only inspects the
optional `message` property (absent or empty means falsy) and the
enumerable own fields. -/
inductive Thrown where
  | zod (issues : List ZodIssue)
  | obj (message : Option String) (fields : List (String × String))
  deriving DecidableEq

/-- Result of a JavaScript call: a returned value or a thrown value. -/
inductive JsOutcome (β : Type) where
  | thrown (e : Thrown)
  | returned (v : β)
  deriving DecidableEq

/-- A settled promise: resolves with a value or rejects with a thrown value. -/
inductive Promise (β : Type) where
  | resolves (v : β)
  | rejects (e : Thrown)
  deriving DecidableEq

/-- Result of Zod `safeParse`: success carries the parsed (possibly
transformed or stripped) data, failure carries the `ZodError` issues. -/
inductive SafeParseResult (α : Type) where
  | success (data : α)
  | failure (issues : List ZodIssue)
  deriving DecidableEq

/-- A validation contract: the capability of a Zod schema that this
library actually uses, namely synchronous `safeParse`. -/
structure Contract (α : Type) where
  safeParse : α → SafeParseResult α

/-- The `SafeAction` builder class of `src/unnamed/part_002`: its only
state is the private `_schema` field, null when absent. -/
structure SafeAction (α : Type) where
  _schema : Option (Contract α)

/-- Method `schema` of the builder, `part_002` lines 8-10: it returns a
brand new `SafeAction` constructed from the given schema; the receiver
is not touched and does not contribute anything to the result. -/
def SafeAction.schema {α β : Type} (b : SafeAction α) (s : Contract β) : SafeAction β :=
  ⟨some s⟩

/-- Method `action` of the builder, `part_002` lines 17-34: with a
schema present it returns a wrapper that runs `safeParse` on the
incoming data, throws the `ZodError` when parsing reports failure, and
otherwise calls `fn` with the original `data` (not with the parsed
output) returning its result unchanged; with no schema it returns `fn`
itself. -/
def SafeAction.action {α γ : Type} (b : SafeAction α) (fn : α → JsOutcome γ) : α → JsOutcome γ :=
  match b._schema with
  | some s => fun data =>
      match s.safeParse data with
      | SafeParseResult.failure issues => JsOutcome.thrown (Thrown.zod issues)
      | SafeParseResult.success _ => fn data
  | none => fn

/-- JavaScript object assignment on a string-keyed object, rendered on
an insertion-ordered association list: an existing key keeps its
position and receives the new value, a fresh key is appended at the
end. -/
def objSet : List (String × String) → String → String → List (String × String)
  | [], k, v => [(k, v)]
  | p :: rest, k, v => if p.1 = k then (k, v) :: rest else p :: objSet rest k v

/-- A sequence of JavaScript object assignments, applied left to right. -/
def objExtend (init : List (String × String)) (kvs : List (String × String)) : List (String × String) :=
  kvs.foldl (fun m p => objSet m p.1 p.2) init

/-- JavaScript property read on the association-list object model. -/
def lookupVal : List (String × String) → String → Option String
  | [], _ => none
  | p :: rest, k => if p.1 = k then some p.2 else lookupVal rest k

/-- Value of the last pair carrying the given key in a list of
assignments (the one that wins when the assignments are replayed), if
any such pair exists. -/
def lastVal : List (String × String) → String → Option String
  | [], _ => none
  | p :: rest, k =>
      match lastVal rest k with
      | some v => some v
      | none => if p.1 = k then some p.2 else none

/-- Separator used when `execute` joins an issue path. -/
def dotSep : String := "."

/-- Rendering of the dotted join of an issue path performed at
`use-rsa.ts` line 31. -/
def joinPath (path : List String) : String :=
  String.intercalate dotSep path

/-- The `validation` object built by the catch block of `use-rsa.ts`
lines 30-33: one assignment per issue, in order, keyed by the dotted
path and storing the issue message. -/
def validationOf (issues : List ZodIssue) : List (String × String) :=
  objExtend [] (issues.map (fun i => (joinPath i.path, i.message)))

/-- The `request` half of the normalized error object: still the empty
object literal it was initialized to, or the object built from a
message-bearing failure, or the raw thrown value passed through. -/
inductive RequestPart where
  | emptyObj
  | withFields (entries : List (String × String))
  | raw (e : Thrown)
  deriving DecidableEq

/-- The normalized error shape initialized at `use-rsa.ts` line 29 with
both halves empty. -/
structure NormalizedError where
  validation : List (String × String)
  request : RequestPart
  deriving DecidableEq

/-- The else branch of the catch block, `use-rsa.ts` lines 34-37: when
the thrown value carries a truthy message the request half becomes the
object literal with the message key first and the enumerable own fields
spread over it; otherwise the raw thrown value is stored as is. -/
def requestOf (m : Option String) (fields : List (String × String)) : RequestPart :=
  match m with
  | some s =>
      if s = "" then RequestPart.raw (Thrown.obj (some s) fields)
      else RequestPart.withFields (objExtend [(("message"), s)] fields)
  | none => RequestPart.raw (Thrown.obj none fields)

/-- The whole catch-block normalization of `use-rsa.ts` lines 29-38: a
`ZodError` fills the validation half and leaves request the empty
object; anything else fills the request half and leaves validation
empty. -/
def normalizeError : Thrown → NormalizedError
  | Thrown.zod issues => ⟨validationOf issues, RequestPart.emptyObj⟩
  | Thrown.obj m fields => ⟨[], requestOf m fields⟩

/-- The argument object passed to `onError`: the normalized error
together with the offending input. -/
structure ErrorResponse (ι : Type) where
  error : NormalizedError
  input : ι
  deriving DecidableEq

/-- The optional callback record (`ActionPropsCallback` of
`src/src/types.ts`); an absent callback object is modelled by both
fields absent. Callbacks are arbitrary JavaScript functions, so each of
them may itself throw. -/
structure Callbacks (ι ο : Type) where
  onSuccess : Option (ο → JsOutcome Unit)
  onError : Option (ErrorResponse ι → JsOutcome Unit)

/-- Observable effects of one `execute` call: the `setStatus` writes in
order, the values handed to `onSuccess`, the responses handed to
`onError`, and the value (if any) that escapes `execute` as a rejection
of the promise it returns. -/
structure ExecTrace (ι ο : Type) where
  statuses : List Status
  successCalls : List ο
  errorCalls : List (ErrorResponse ι)
  escaped : Option Thrown
  deriving DecidableEq

/-- The catch block of `execute` (`use-rsa.ts` lines 28-44) entered with
thrown value `e` after the success-path effects `sc`: it builds the
normalized error, invokes `onError` when supplied, and writes status
error - unless `onError` itself throws, in which case the status write
is never reached and the thrown value escapes. -/
def catchWith {ι ο : Type} (cb : Callbacks ι ο) (payload : ι) (sc : List ο) (e : Thrown) : ExecTrace ι ο :=
  match cb.onError with
  | none => ⟨[Status.executing, Status.error], sc, [], none⟩
  | some g =>
      match g ⟨normalizeError e, payload⟩ with
      | JsOutcome.returned _ => ⟨[Status.executing, Status.error], sc, [⟨normalizeError e, payload⟩], none⟩
      | JsOutcome.thrown e2 => ⟨[Status.executing], sc, [⟨normalizeError e, payload⟩], some e2⟩

/-- The `execute` function of `useAction` (`use-rsa.ts` lines 21-47): it
sets status executing, awaits the wrapped action (a synchronous throw
and a rejected promise are caught alike), on resolution invokes
`onSuccess` (whose own throw is still inside the same try and therefore
caught) and then sets status success; every caught value goes through
the catch block. -/
def execute {ι ο : Type} (action : ι → JsOutcome (Promise ο)) (cb : Callbacks ι ο) (payload : ι) : ExecTrace ι ο :=
  match action payload with
  | JsOutcome.thrown e => catchWith cb payload [] e
  | JsOutcome.returned (Promise.rejects e) => catchWith cb payload [] e
  | JsOutcome.returned (Promise.resolves res) =>
      match cb.onSuccess with
      | none => ⟨[Status.executing, Status.success], [], [], none⟩
      | some f =>
          match f res with
          | JsOutcome.returned _ => ⟨[Status.executing, Status.success], [res], [], none⟩
          | JsOutcome.thrown e => catchWith cb payload [res] e

/-- Status visible after a trace of `setStatus` writes starting from
`init`: the last write wins, and with no write the status is unchanged. -/
def finalStatus {ι ο : Type} (init : Status) (t : ExecTrace ι ο) : Status :=
  t.statuses.foldl (fun _ s2 => s2) init

/-- The `reset` callback of `useAction` (`use-rsa.ts` lines 17-19): it
writes status idle whatever the current status is. -/
def reset (s : Status) : Status :=
  Status.idle

/-- The derived `loading` flag returned by the hook (`use-rsa.ts` line
49): the status compared against executing. -/
def loadingOf (s : Status) : Bool :=
  s == Status.executing

/-- A callbacks record whose `onError`, when supplied, returns normally
on every argument (never throws). -/
def onErrorTotal {ι ο : Type} (cb : Callbacks ι ο) : Prop :=
  ∀ g, cb.onError = some g → ∀ x, ∃ u, g x = JsOutcome.returned u

/-- Issues reported by a contract rejecting a login form (demo value). -/
def demoIssues : List ZodIssue :=
  [⟨["email"], "Invalid email"⟩, ⟨["password"], "Too short"⟩]

/-- A contract rejecting every input with the demo issues. -/
def cRej : Contract Nat := ⟨fun _ => SafeParseResult.failure demoIssues⟩

/-- A contract that accepts every number and normalizes it to its
successor: the shallow rendering of a transforming Zod schema, whose
parse output differs from its input. -/
def cInc : Contract Nat := ⟨fun n => SafeParseResult.success (n + 1)⟩

/-- A handler that resolves with its own input. -/
def echoHandler : Nat → JsOutcome (Promise Nat) :=
  fun n => JsOutcome.returned (Promise.resolves n)

/-- An action whose promise always rejects with a plain runtime error. -/
def actReject : Nat → JsOutcome (Promise Nat) :=
  fun _ => JsOutcome.returned (Promise.rejects (Thrown.obj (some ("boom")) []))

/-- Two issues sharing one field path: Zod reports one issue per failed
rule, so a single field can carry several issues at once. -/
def dupIssues : List ZodIssue :=
  [⟨["email"], "Too short"⟩, ⟨["email"], "Invalid email"⟩]

/-- A callback record with a throwing `onError`. -/
def cbThrowOnError : Callbacks Nat Nat :=
  ⟨none, some (fun _ => JsOutcome.thrown (Thrown.obj (some ("cb exploded")) []))⟩

/-- A callback record whose `onError` returns normally. -/
def cbReturnErr : Callbacks Nat Nat :=
  ⟨none, some (fun _ => JsOutcome.returned ())⟩

/-- A callback record with no callbacks at all. -/
def cbNone : Callbacks Nat Nat := ⟨none, none⟩

/-- An `onSuccess` callback that throws a plain error carrying an extra
enumerable field. -/
def f7 : Nat → JsOutcome Unit :=
  fun _ => JsOutcome.thrown (Thrown.obj (some ("onSuccess boom")) [(("code"), ("500"))])

/-- An `onError` callback that returns normally. -/
def g7 : ErrorResponse Nat → JsOutcome Unit :=
  fun _ => JsOutcome.returned ()

/-- A callback record with a throwing `onSuccess` and a well-behaved
`onError`. -/
def cb7 : Callbacks Nat Nat := ⟨some f7, some g7⟩

/-- A callback record where `onSuccess` throws a `ZodError` and
`onError` throws as well. -/
def cb7bad : Callbacks Nat Nat :=
  ⟨some (fun _ => JsOutcome.thrown (Thrown.zod [⟨["x"], "bad"⟩])),
   some (fun _ => JsOutcome.thrown (Thrown.obj (some ("onerror boom")) []))⟩

/-- Reading a key after a JavaScript object assignment: the assigned key
now maps to the assigned value and every other key is unchanged. -/
theorem lookupVal_objSet (m : List (String × String)) (k v k2 : String) :
    lookupVal (objSet m k v) k2 = if k2 = k then some v else lookupVal m k2 := by
  induction m with
  | nil =>
      simp only [objSet, lookupVal]
      by_cases h : k2 = k
      · simp [h]
      · simp [h, Ne.symm h]
  | cons p rest ih =>
      simp only [objSet]
      by_cases hpk : p.1 = k
      · rw [if_pos hpk]
        simp only [lookupVal]
        by_cases h : k2 = k
        · simp [h, hpk]
        · have hp2 : ¬p.1 = k2 := fun hh => h ((hh ▸ hpk : k2 = k))
          simp [h, Ne.symm h, hp2]
      · rw [if_neg hpk]
        simp only [lookupVal]
        by_cases hp2 : p.1 = k2
        · have h : ¬k2 = k := fun hh => hpk (hp2.trans hh)
          simp [h, hp2]
        · simp [hp2, ih]

/-- Reading a key after replaying a sequence of assignments over an
initial object: the last assignment to that key wins, and with no such
assignment the initial object answers. -/
theorem lookupVal_objExtend (kvs : List (String × String)) :
    ∀ (init : List (String × String)) (k : String),
      lookupVal (objExtend init kvs) k
        = match lastVal kvs k with
          | some v => some v
          | none => lookupVal init k := by
  induction kvs with
  | nil =>
      intro init k
      simp [objExtend, lastVal]
  | cons p rest ih =>
      intro init k
      have hstep : objExtend init (p :: rest) = objExtend (objSet init p.1 p.2) rest := rfl
      rw [hstep, ih]
      cases hl : lastVal rest k with
      | some v => simp [lastVal, hl]
      | none =>
          rw [lookupVal_objSet]
          by_cases hp : p.1 = k
          · subst hp
            simp [lastVal, hl]
          · simp [lastVal, hl, hp, Ne.symm hp]

/-- A replayed assignment list whose head carries the key always answers
that key. -/
theorem lastVal_cons_self (k v : String) (t : List (String × String)) :
    lastVal ((k, v) :: t) k ≠ none := by
  simp only [lastVal]
  cases hl : lastVal t k with
  | some w => simp
  | none => simp

/-- The validation object built from a nonempty issue list is nonempty. -/
theorem validationOf_ne_nil (i : ZodIssue) (rest : List ZodIssue) :
    validationOf (i :: rest) ≠ [] := by
  intro h0
  have h1 := lookupVal_objExtend ((i :: rest).map (fun j => (joinPath j.path, j.message))) [] (joinPath i.path)
  rw [show objExtend [] ((i :: rest).map (fun j => (joinPath j.path, j.message)))
        = validationOf (i :: rest) from rfl, h0] at h1
  simp only [lookupVal, List.map] at h1
  have h2 := lastVal_cons_self (joinPath i.path) i.message
    (rest.map (fun j => (joinPath j.path, j.message)))
  cases hl : lastVal ((joinPath i.path, i.message) :: rest.map (fun j => (joinPath j.path, j.message))) (joinPath i.path) with
  | some w => rw [hl] at h1; exact Option.noConfusion h1
  | none => exact h2 hl

/-- The request half built for a non-ZodError failure is never the empty
object. -/
theorem requestOf_ne_emptyObj (m : Option String) (fs : List (String × String)) :
    requestOf m fs ≠ RequestPart.emptyObj := by
  cases m with
  | none => exact fun h => RequestPart.noConfusion h
  | some s =>
      by_cases hs : s = ""
      · intro h
        simp only [requestOf] at h
        rw [if_pos hs] at h
        exact RequestPart.noConfusion h
      · intro h
        simp only [requestOf] at h
        rw [if_neg hs] at h
        exact RequestPart.noConfusion h

/-- The catch block with an absent `onError`. -/
theorem catchWith_onError_none {ι ο : Type} (cb : Callbacks ι ο) (payload : ι) (sc : List ο)
    (e : Thrown) (hg : cb.onError = none) :
    catchWith cb payload sc e = ⟨[Status.executing, Status.error], sc, [], none⟩ := by
  simp [catchWith, hg]

/-- The catch block with an `onError` that returns normally on the
response it receives. -/
theorem catchWith_onError_returns {ι ο : Type} (cb : Callbacks ι ο) (payload : ι) (sc : List ο)
    (e : Thrown) (g : ErrorResponse ι → JsOutcome Unit) (u : Unit)
    (hg : cb.onError = some g)
    (hu : g ⟨normalizeError e, payload⟩ = JsOutcome.returned u) :
    catchWith cb payload sc e
      = ⟨[Status.executing, Status.error], sc, [⟨normalizeError e, payload⟩], none⟩ := by
  simp [catchWith, hg, hu]

/-- When the supplied `onError` never throws, every run of `execute`
writes exactly executing followed by success, or executing followed by
error, and nothing escapes. -/
theorem execute_ok {ι ο : Type} (action : ι → JsOutcome (Promise ο)) (cb : Callbacks ι ο)
    (payload : ι) (h : onErrorTotal cb) :
    ((execute action cb payload).statuses = [Status.executing, Status.success] ∨
     (execute action cb payload).statuses = [Status.executing, Status.error]) ∧
    (execute action cb payload).escaped = none := by
  have hcatch : ∀ (sc : List ο) (e : Thrown),
      (catchWith cb payload sc e).statuses = [Status.executing, Status.error] ∧
      (catchWith cb payload sc e).escaped = none := by
    intro sc e
    cases hg : cb.onError with
    | none =>
        rw [catchWith_onError_none cb payload sc e hg]
        exact ⟨rfl, rfl⟩
    | some g =>
        obtain ⟨u, hu⟩ := h g hg ⟨normalizeError e, payload⟩
        rw [catchWith_onError_returns cb payload sc e g u hg hu]
        exact ⟨rfl, rfl⟩
  cases hap : action payload with
  | thrown e =>
      simp only [execute, hap]
      exact ⟨Or.inr (hcatch [] e).1, (hcatch [] e).2⟩
  | returned p =>
      cases p with
      | rejects e =>
          simp only [execute, hap]
          exact ⟨Or.inr (hcatch [] e).1, (hcatch [] e).2⟩
      | resolves res =>
          cases hf : cb.onSuccess with
          | none =>
              refine ⟨Or.inl ?_, ?_⟩ <;> simp [execute, hap, hf]
          | some f =>
              cases hr : f res with
              | returned u =>
                  refine ⟨Or.inl ?_, ?_⟩ <;> simp [execute, hap, hf, hr]
              | thrown e =>
                  simp only [execute, hap, hf, hr]
                  exact ⟨Or.inr (hcatch [res] e).1, (hcatch [res] e).2⟩

/-- C1 (amended): for every action built with an attached contract and
every input the contract accepts, invoking the Action calls the handler
exactly once, passing it the original invocation input unchanged - not
the contract-normalized parse output, which the wrapper discards - and
returns the handler's result (its promise) unchanged, so resolution or
rejection propagates untouched. The equation holds for every handler
over every result type: invoking the built action is exactly one
application of the handler to the raw input. -/
theorem C1_handler_gets_original_input {α0 α γ : Type} (b : SafeAction α0) (c : Contract α)
    (fn : α → JsOutcome γ) (data v : α)
    (h : c.safeParse data = SafeParseResult.success v) :
    (b.schema c).action fn data = fn data := by
  simp [SafeAction.schema, SafeAction.action, h]

/-- C1 witness: the transforming contract accepts the input 0, parsing
it to 1, and the built action hands the handler the raw 0. -/
theorem C1_witness :
    cInc.safeParse 0 = SafeParseResult.success 1 ∧
    ((⟨none⟩ : SafeAction Nat).schema cInc).action echoHandler 0 = echoHandler 0 :=
  ⟨rfl, C1_handler_gets_original_input (⟨none⟩ : SafeAction Nat) cInc echoHandler 0 1 rfl⟩

/-- C1 counterexample: the contract accepts 0 and normalizes it to 1,
yet the echoing handler resolves with 0 - the handler received the raw
input, not the contract-normalized value, refuting the claim as
stated. -/
theorem C1_cex :
    cInc.safeParse 0 = SafeParseResult.success 1 ∧
    ((⟨none⟩ : SafeAction Nat).schema cInc).action echoHandler 0
      = JsOutcome.returned (Promise.resolves 0) ∧
    ((⟨none⟩ : SafeAction Nat).schema cInc).action echoHandler 0
      ≠ JsOutcome.returned (Promise.resolves 1) :=
  ⟨rfl, rfl, by decide⟩

/-- C2 (confirmed): for every action built with an attached contract and
every input the contract rejects, invoking the Action synchronously
throws (the outcome is a throw, produced before any promise exists) the
`ZodError` carrying exactly the contract's reported issue list - same
paths, same messages - and, since the equation holds uniformly for
every handler, the handler is never called. -/
theorem C2_reject_throws {α0 α γ : Type} (b : SafeAction α0) (c : Contract α) (data : α)
    (issues : List ZodIssue)
    (h : c.safeParse data = SafeParseResult.failure issues) :
    ∀ fn : α → JsOutcome γ, (b.schema c).action fn data = JsOutcome.thrown (Thrown.zod issues) := by
  intro fn
  simp [SafeAction.schema, SafeAction.action, h]

/-- C2 witness: the rejecting contract reports the demo issues on input
5 and the built action throws exactly them. -/
theorem C2_witness :
    cRej.safeParse 5 = SafeParseResult.failure demoIssues ∧
    ((⟨none⟩ : SafeAction Nat).schema cRej).action echoHandler 5
      = JsOutcome.thrown (Thrown.zod demoIssues) :=
  ⟨rfl, C2_reject_throws (⟨none⟩ : SafeAction Nat) cRej 5 demoIssues rfl echoHandler⟩

/-- C3 (amended): every failure caught by `execute` is normalized so
that a ZodError leaves the request half the empty object and fills the
validation half with one entry per distinct dotted field path - looking
up any key yields the message of the last reported issue for that path,
and the validation half is nonempty whenever at least one issue was
reported - while every other thrown value leaves validation empty and
fills the request half: with the message object when a nonempty message
is present, with the raw thrown value otherwise. -/
theorem C3_normalization (e : Thrown) :
    (∀ issues, e = Thrown.zod issues →
        (normalizeError e).request = RequestPart.emptyObj ∧
        (∀ k, lookupVal (normalizeError e).validation k
            = lastVal (issues.map (fun i => (joinPath i.path, i.message))) k) ∧
        (issues ≠ [] → (normalizeError e).validation ≠ [])) ∧
    (∀ m fs, e = Thrown.obj m fs →
        (normalizeError e).validation = [] ∧
        (normalizeError e).request ≠ RequestPart.emptyObj ∧
        (∀ s, m = some s → ¬s = "" →
            (normalizeError e).request
              = RequestPart.withFields (objExtend [(("message"), s)] fs)) ∧
        ((m = none ∨ m = some "") → (normalizeError e).request = RequestPart.raw e)) := by
  constructor
  · intro issues he
    subst he
    refine ⟨rfl, ?_, ?_⟩
    · intro k
      have h1 := lookupVal_objExtend (issues.map (fun i => (joinPath i.path, i.message))) [] k
      cases hl : lastVal (issues.map (fun i => (joinPath i.path, i.message))) k with
      | some w =>
          rw [hl] at h1
          exact h1
      | none =>
          rw [hl] at h1
          simpa [lookupVal] using h1
    · intro hne
      cases issues with
      | nil => exact absurd rfl hne
      | cons i rest => exact validationOf_ne_nil i rest
  · intro m fs he
    subst he
    refine ⟨rfl, requestOf_ne_emptyObj m fs, ?_, ?_⟩
    · intro s hm hs
      subst hm
      show requestOf (some s) fs = _
      simp only [requestOf]
      rw [if_neg hs]
    · rintro (hm | hm) <;> subst hm
      · rfl
      · show requestOf (some ("")) fs = RequestPart.raw (Thrown.obj (some ("")) fs)
        simp [requestOf]

/-- C3 witness: the demo ZodError is normalized with the request half
empty and the email key mapped to its reported message. -/
theorem C3_witness :
    (normalizeError (Thrown.zod demoIssues)).request = RequestPart.emptyObj ∧
    lookupVal (normalizeError (Thrown.zod demoIssues)).validation ("email")
      = some ("Invalid email") := by
  have h := (C3_normalization (Thrown.zod demoIssues)).1 demoIssues rfl
  refine ⟨h.1, ?_⟩
  rw [h.2.1 ("email")]
  decide

/-- C3 counterexample: two rejected rules on the same field collapse to
a single validation entry carrying the later message, so the claimed
one entry per rejected field/rule fails. -/
theorem C3_cex :
    dupIssues.length = 2 ∧
    (normalizeError (Thrown.zod dupIssues)).validation
      = [(("email"), ("Invalid email"))] ∧
    (normalizeError (Thrown.zod dupIssues)).validation.length = 1 :=
  ⟨rfl, by decide, by decide⟩

/-- C4 (amended): provided the supplied `onError` callback itself
returns normally, no exception escapes `execute` - synchronous throws,
promise rejections and `onSuccess` throws are all caught - and every
failure of the wrapped action is routed to the supplied `onError` as the
normalized error together with the offending input. -/
theorem C4_no_escape {ι ο : Type} (action : ι → JsOutcome (Promise ο)) (cb : Callbacks ι ο)
    (payload : ι) (h : onErrorTotal cb) :
    (execute action cb payload).escaped = none ∧
    (∀ g e2, cb.onError = some g →
        (action payload = JsOutcome.thrown e2 ∨
         action payload = JsOutcome.returned (Promise.rejects e2)) →
        (execute action cb payload).errorCalls = [⟨normalizeError e2, payload⟩]) := by
  refine ⟨(execute_ok action cb payload h).2, ?_⟩
  intro g e2 hg hcase
  obtain ⟨u, hu⟩ := h g hg ⟨normalizeError e2, payload⟩
  rcases hcase with hap | hap <;>
  · simp only [execute, hap]
    rw [catchWith_onError_returns cb payload [] e2 g u hg hu]

/-- C4 witness: a rejecting action with a well-behaved `onError` lets
nothing escape and routes the failure to the callback. -/
theorem C4_witness :
    onErrorTotal cbReturnErr ∧
    ((execute actReject cbReturnErr 7).escaped = none ∧
     (execute actReject cbReturnErr 7).errorCalls
       = [⟨normalizeError (Thrown.obj (some ("boom")) []), 7⟩]) := by
  have hp : onErrorTotal cbReturnErr := by
    intro g hg x
    have hg2 : (some (fun _ => JsOutcome.returned ()) : Option (ErrorResponse Nat → JsOutcome Unit)) = some g := hg
    rw [Option.some.injEq] at hg2
    subst hg2
    exact ⟨(), rfl⟩
  have h := C4_no_escape actReject cbReturnErr 7 hp
  exact ⟨hp, h.1, h.2 _ (Thrown.obj (some ("boom")) []) rfl (Or.inr rfl)⟩

/-- C4 counterexample: with a throwing `onError` the failure escapes
`execute` as a rejection of its own returned promise. -/
theorem C4_cex :
    (execute actReject cbThrowOnError 1).escaped
      = some (Thrown.obj (some ("cb exploded")) []) ∧
    (execute actReject cbThrowOnError 1).escaped ≠ none :=
  ⟨rfl, by decide⟩

/-- C5 (confirmed): an action built without a contract IS the handler:
the builder returns the handler itself, so every invocation forwards the
exact input to the handler with no validation step interposed and no
failure introduced by this layer at all. -/
theorem C5_no_contract_forwards {α γ : Type} :
    ∀ fn : α → JsOutcome γ, (⟨none⟩ : SafeAction α).action fn = fn :=
  fun _ => rfl

/-- C6 (amended): from every starting state, `execute` first writes
status executing and then - provided the supplied `onError` callback
returns normally - its status writes are exactly executing followed by
success, or executing followed by error: once the promise settles it
lands on exactly one of success or error, never back at idle and never
stuck at executing. -/
theorem C6_lands_success_or_error {ι ο : Type} (s0 : Status)
    (action : ι → JsOutcome (Promise ο)) (cb : Callbacks ι ο) (payload : ι)
    (h : onErrorTotal cb) :
    ((execute action cb payload).statuses = [Status.executing, Status.success] ∨
     (execute action cb payload).statuses = [Status.executing, Status.error]) ∧
    (execute action cb payload).statuses.head? = some Status.executing ∧
    (finalStatus s0 (execute action cb payload) = Status.success ∨
     finalStatus s0 (execute action cb payload) = Status.error) ∧
    finalStatus s0 (execute action cb payload) ≠ Status.idle := by
  rcases (execute_ok action cb payload h).1 with h1 | h1
  · refine ⟨Or.inl h1, ?_, Or.inl ?_, ?_⟩ <;> simp [finalStatus, h1]
  · refine ⟨Or.inr h1, ?_, Or.inr ?_, ?_⟩ <;> simp [finalStatus, h1]

/-- C6 witness: with no callbacks supplied, a rejecting action drives
the status from idle through executing to error. -/
theorem C6_witness :
    onErrorTotal cbNone ∧
    (((execute actReject cbNone 3).statuses = [Status.executing, Status.success] ∨
      (execute actReject cbNone 3).statuses = [Status.executing, Status.error]) ∧
     (execute actReject cbNone 3).statuses.head? = some Status.executing ∧
     (finalStatus Status.idle (execute actReject cbNone 3) = Status.success ∨
      finalStatus Status.idle (execute actReject cbNone 3) = Status.error) ∧
     finalStatus Status.idle (execute actReject cbNone 3) ≠ Status.idle) := by
  have hp : onErrorTotal cbNone := by
    intro g hg
    exact absurd hg (by simp [cbNone])
  exact ⟨hp, C6_lands_success_or_error Status.idle actReject cbNone 3 hp⟩

/-- C6 counterexample: the handler settles (its promise rejects), yet
with a throwing `onError` the only status write is executing - the
invoker is stuck there, refuting the claim as stated. -/
theorem C6_cex :
    (execute actReject cbThrowOnError 0).statuses = [Status.executing] ∧
    finalStatus Status.idle (execute actReject cbThrowOnError 0) = Status.executing :=
  ⟨rfl, rfl⟩

/-- C7 (amended): if the wrapped action resolves but the caller-supplied
`onSuccess` throws a value that is not a ZodError, then - provided
`onError` returns normally - `execute` catches the throw, normalizes it
into the request half with validation left empty, invokes `onError` with
it, and the final status is error rather than success, even though the
handler itself succeeded. -/
theorem C7_onSuccess_throw_caught {ι ο : Type} (action : ι → JsOutcome (Promise ο))
    (cb : Callbacks ι ο) (payload : ι) (res : ο) (f : ο → JsOutcome Unit)
    (g : ErrorResponse ι → JsOutcome Unit) (m : Option String)
    (fs : List (String × String)) (u : Unit)
    (h1 : action payload = JsOutcome.returned (Promise.resolves res))
    (h2 : cb.onSuccess = some f)
    (h3 : f res = JsOutcome.thrown (Thrown.obj m fs))
    (h4 : cb.onError = some g)
    (h5 : g ⟨normalizeError (Thrown.obj m fs), payload⟩ = JsOutcome.returned u) :
    execute action cb payload
      = ⟨[Status.executing, Status.error], [res],
         [⟨normalizeError (Thrown.obj m fs), payload⟩], none⟩ ∧
    (normalizeError (Thrown.obj m fs)).validation = [] ∧
    (normalizeError (Thrown.obj m fs)).request ≠ RequestPart.emptyObj := by
  refine ⟨?_, rfl, requestOf_ne_emptyObj m fs⟩
  simp only [execute, h1, h2, h3]
  rw [catchWith_onError_returns cb payload [res] (Thrown.obj m fs) g u h4 h5]

/-- C7 witness: the action resolves with 2, `onSuccess` throws a plain
error, and the run ends with status error, the error routed into the
request half. -/
theorem C7_witness :
    echoHandler 2 = JsOutcome.returned (Promise.resolves 2) ∧
    f7 2 = JsOutcome.thrown (Thrown.obj (some ("onSuccess boom")) [(("code"), ("500"))]) ∧
    (execute echoHandler cb7 2
        = ⟨[Status.executing, Status.error], [2],
           [⟨normalizeError (Thrown.obj (some ("onSuccess boom")) [(("code"), ("500"))]), 2⟩],
           none⟩ ∧
     (normalizeError (Thrown.obj (some ("onSuccess boom")) [(("code"), ("500"))])).validation = [] ∧
     (normalizeError (Thrown.obj (some ("onSuccess boom")) [(("code"), ("500"))])).request
       ≠ RequestPart.emptyObj) := by
  refine ⟨rfl, rfl, ?_⟩
  exact C7_onSuccess_throw_caught echoHandler cb7 2 2 f7 g7 (some ("onSuccess boom"))
    [(("code"), ("500"))] () rfl rfl rfl rfl rfl

/-- C7 counterexample: `onSuccess` throws a ZodError, which lands in the
validation half with the request half left empty, and the throwing
`onError` leaves the final status at executing - refuting both the
request-normalization and the final-status parts of the claim as
stated. -/
theorem C7_cex :
    execute echoHandler cb7bad 0
      = ⟨[Status.executing], [0],
         [⟨⟨[(("x"), ("bad"))], RequestPart.emptyObj⟩, 0⟩],
         some (Thrown.obj (some ("onerror boom")) [])⟩ ∧
    (execute echoHandler cb7bad 0).errorCalls.map (fun r => r.error.request)
      = [RequestPart.emptyObj] ∧
    finalStatus Status.idle (execute echoHandler cb7bad 0) ≠ Status.error :=
  ⟨by decide, by decide, by decide⟩

/-- C8 (confirmed): in every state the exposed loading boolean is true
exactly when the exposed status is executing. -/
theorem C8_loading_iff_executing :
    ∀ s : Status, loadingOf s = true ↔ s = Status.executing := by
  intro s
  cases s <;> decide

/-- C9 (confirmed): `reset` sets the status to idle from every state,
and it is idempotent: resetting an already idle status leaves it idle. -/
theorem C9_reset_idle :
    ∀ s : Status, reset s = Status.idle ∧ reset (reset s) = Status.idle ∧
      reset Status.idle = Status.idle :=
  fun _ => ⟨rfl, rfl, rfl⟩

/-- C10 (confirmed): `schema` returns a new builder holding exactly the
given contract and depending in no way on the receiver - so the receiver
is left untouched and one base builder can derive many differently typed
builders, each bound to its own contract - and the action built from the
derived builder behaves as the pure wrapper determined by that contract
alone, fixed at construction time. -/
theorem C10_schema_new_builder {α β γ δ : Type} :
    ∀ (b b2 : SafeAction α) (c : Contract β) (c2 : Contract γ)
      (fn : β → JsOutcome δ) (data : β),
      (b.schema c)._schema = some c ∧
      b.schema c = b2.schema c ∧
      (b.schema c2)._schema = some c2 ∧
      (b.schema c).action fn data = (⟨some c⟩ : SafeAction β).action fn data :=
  fun _ _ _ _ _ _ => ⟨rfl, rfl, rfl, rfl⟩

end RSA
